import Mathlib

/-!
Verification of the gpt-cli agent (src/main.py) against its specification.

Shallow embedding conventions:
* Python strings are sequences of Unicode code points, embedded as `List Char`
  (abbreviated `Str`); `len` is `List.length`, slicing `s[:n]` is `List.take n`,
  `+` is `List.append`.
* External effects (the subprocess result, the filesystem, the skills
  directory) are passed explicitly as values or small state records.
* `json.loads` is an external library routine: it is modelled as an abstract
  decoder `Str → Option Json` passed as a parameter; `none` models a raised
  `json.JSONDecodeError`.
* A Python function that may raise is embedded as a function into
  `Except Str Str`, `Except.error m` modelling an exception with message `m`.
-/

namespace GptCli

/-- A Python string: the sequence of its code points. -/
abbrev Str := List Char

/-- Lexicographic code-point comparison of Python strings (the default
`<=` used by Python `sorted` on strings). -/
def strLe : Str → Str → Bool
  | [], _ => true
  | _ :: _, [] => false
  | a :: as, b :: bs => if a < b then true else if b < a then false else strLe as bs

/-- Insert into a sorted list of strings, keeping order. -/
def insertStr (x : Str) : List Str → List Str
  | [] => [x]
  | y :: ys => if strLe x y then x :: y :: ys else y :: insertStr x ys

/-- Python `sorted` on a list of strings: returns the list sorted by
lexicographic code-point order (insertion sort; extensionally equal to
Python's stable sort because equal strings are identical). -/
def sortStrs : List Str → List Str
  | [] => []
  | x :: xs => insertStr x (sortStrs xs)

/-- Python `str.strip()`: remove leading and trailing whitespace. -/
def pyStrip (s : Str) : Str :=
  ((s.dropWhile Char.isWhitespace).reverse.dropWhile Char.isWhitespace).reverse

/-- Python `str.replace(' ', '_')` followed by `.lower()`, as in
`create_skill`'s slug derivation (ASCII lowering, which covers the
spec's examples). -/
def slugOf (name : Str) : Str :=
  (name.map fun c => if c = ' ' then '_' else c).map Char.toLower

/-! ## JSON values and keyword invocation

`json.loads(tool_call.function.arguments)` produces a Python value; the
dispatch then performs `TOOLS_MAP[func_name](**args)`.  The decoded value is
embedded as `Json`; the `**`-unpacking call is embedded by `invokeKw`. -/

/-- A decoded JSON value (numbers collapsed to `Int`; the distinction is
irrelevant to the dispatch logic, which only branches on the mapping
structure). -/
inductive Json where
  | null : Json
  | bool (b : Bool) : Json
  | num (n : Int) : Json
  | str (s : Str) : Json
  | arr (xs : List Json) : Json
  | obj (fields : List (Str × Json)) : Json

/-- A registered tool: the parameter names of the Python function, and its
body.  The body returns `Except.error m` when it raises an exception with
message `m` past its own boundary. -/
structure Tool where
  params : List Str
  impl : List (Str × Json) → Except Str Str

/-- Python call `f(**args)` for a function whose parameters are exactly
`t.params` (all required, no defaults, as for every tool in TOOLS_MAP):
raises `TypeError` (modelled with an abstract message) when `args` is not a
mapping or when its keys do not exactly cover the parameter names; otherwise
runs the body. -/
def invokeKw (t : Tool) (args : Json) : Except Str Str :=
  match args with
  | Json.obj fields =>
      let keys := fields.map Prod.fst
      if t.params.all (fun p => keys.contains p) && keys.all (fun k => t.params.contains k)
      then t.impl fields
      else Except.error ("unexpected or missing keyword arguments".toList)
  | _ => Except.error ("argument after ** must be a mapping".toList)

/-- Python `func_name in TOOLS_MAP` / `TOOLS_MAP[func_name]`: dictionary
lookup in the tool registry (keys are unique in the source dictionary). -/
def lookupTool : List (Str × Tool) → Str → Option Tool
  | [], _ => none
  | (k, t) :: rest, nm => if k = nm then some t else lookupTool rest nm

/-! ## Conversation data model -/

/-- One tool call of an assistant reply: `tool_call.id`,
`tool_call.function.name`, `tool_call.function.arguments`. -/
structure ToolCall where
  id : Str
  name : Str
  arguments : Str
deriving DecidableEq

/-- A conversation message.  Assistant messages carry optional text content
and the ordered tool calls; `Msg.tool` is the role-tool dict with fields
tool_call_id and content that the dispatch loop appends. -/
inductive Msg where
  | system (content : Str) : Msg
  | user (content : Str) : Msg
  | assistant (content : Option Str) (tool_calls : List ToolCall) : Msg
  | tool (tool_call_id : Str) (content : Str) : Msg
deriving DecidableEq

/-- One model reply (`response.choices[0].message`): optional content and an
ordered list of tool calls (the API's `None` is the empty list). -/
structure Reply where
  content : Option Str
  tool_calls : List ToolCall

/-! ## The dispatch step of `_run_agent_loop` (src/main.py lines 233-256) -/

/-- The body of the `try`/`except` of one tool-call dispatch:
decode the arguments (`json.loads`); on `JSONDecodeError`, the
invalid-arguments text; on success look the name up in `TOOLS_MAP`
(not-found text when absent) and invoke with `**args`, any exception being
converted by the generic handler to the executing-error text. -/
def dispatchResult (json_loads : Str → Option Json) (tools_map : List (Str × Tool))
    (c : ToolCall) : Str :=
  match json_loads c.arguments with
  | none => "Error: Invalid arguments for tool '".toList ++ c.name ++ "'.".toList
  | some args =>
      match lookupTool tools_map c.name with
      | some t =>
          match invokeKw t args with
          | Except.ok r => r
          | Except.error e => "Error executing tool '".toList ++ c.name ++ "': ".toList ++ e
      | none => "Error: Tool '".toList ++ c.name ++ "' not found.".toList

/-- Result truncation (src/main.py lines 249-250): a result longer than
10000 code points is cut to its first 10000 and the fixed marker is
appended. -/
def truncateResult (s : Str) : Str :=
  if s.length > 10000 then s.take 10000 ++ "... [Truncated]".toList else s

/-- The `for tool_call in message.tool_calls` loop: for each call in order,
compute its result, truncate it, and append one tool message carrying the
call's id. -/
def dispatchCalls (json_loads : Str → Option Json) (tools_map : List (Str × Tool)) :
    List ToolCall → List Msg → List Msg
  | [], msgs => msgs
  | c :: rest, msgs =>
      dispatchCalls json_loads tools_map rest
        (msgs ++ [Msg.tool c.id (truncateResult (dispatchResult json_loads tools_map c))])

/-- The `while True` turn loop of `_run_agent_loop`, driven by the sequence
of replies the remote model will return (one reply consumed per model call).
Returns the final conversation and the number of model calls made in the
turn, or `none` when the supplied reply sequence is exhausted before the
model stops requesting tools (the source loop is unbounded). -/
def runTurn (json_loads : Str → Option Json) (tools_map : List (Str × Tool)) :
    List Reply → List Msg → Option (List Msg × Nat)
  | [], _ => none
  | r :: rest, msgs =>
      let msgs1 := msgs ++ [Msg.assistant r.content r.tool_calls]
      if r.tool_calls = [] then some (msgs1, 1)
      else
        match runTurn json_loads tools_map rest
            (dispatchCalls json_loads tools_map r.tool_calls msgs1) with
        | none => none
        | some (m, n) => some (m, n + 1)

/-! ## Tool implementations -/

/-- The completed `subprocess.run(...)` value: captured stdout, stderr and
return code (`check=False`, so a non-zero code does not raise). -/
structure ProcResult where
  stdout : Str
  stderr : Str
  returncode : Int

/-- Outcome of attempting the subprocess call: completion, or an exception
raised by `subprocess.run` itself (caught by the function's handler). -/
inductive ProcOutcome where
  | completed (r : ProcResult) : ProcOutcome
  | raised (msg : Str) : ProcOutcome

/-- The `output` local of `run_shell_command`: stdout, with
`"\nSTDERR:\n" + stderr` appended exactly when stderr is non-empty
(Python truthiness of a string). -/
def mergedOutput (r : ProcResult) : Str :=
  if r.stderr = [] then r.stdout else r.stdout ++ "\nSTDERR:\n".toList ++ r.stderr

/-- `run_shell_command` (src/main.py lines 29-40), as a function of the
subprocess outcome: returns the merged output unless it strips to empty, in
which case a fixed literal; an exception becomes an error text.  Totality of
this function embeds "never raises to its caller". -/
def run_shell_command (p : ProcOutcome) : Str :=
  match p with
  | ProcOutcome.completed r =>
      let output := mergedOutput r
      if pyStrip output ≠ [] then output
      else "Command executed successfully with no output.".toList
  | ProcOutcome.raised m => "Error executing command: ".toList ++ m

/-- The directory-related part of the filesystem, as `list_directory` probes
it: `Path(p).is_dir()` and `os.listdir(p)`. -/
structure DirFS where
  is_dir : Str → Bool
  listdir : Str → List Str

/-- `list_directory` (src/main.py lines 61-71): error text for a
non-directory, otherwise the sorted entries joined by newlines, or the
empty-directory literal.  (The `except` branch guards `os.listdir` raising
despite `is_dir`; the embedding's total `listdir` never does.) -/
def list_directory (fs : DirFS) (dir_path : Str) : Str :=
  if ¬ fs.is_dir dir_path then
    "Error: ".toList ++ dir_path ++ " is not a valid directory.".toList
  else
    let entries := sortStrs (fs.listdir dir_path)
    if entries = [] then "(Empty directory)".toList
    else List.intercalate "\n".toList entries

/-- The skills directory as a map from file name to file content, embedded
as an association list with unique keys. -/
abbrev SkillStore := List (Str × Str)

/-- Writing a file: `open(path, "w")` truncates/overwrites, so the entry for
the key is replaced (and never duplicated). -/
def fsWrite (store : SkillStore) (key content : Str) : SkillStore :=
  store.filter (fun p => decide (p.1 ≠ key)) ++ [(key, content)]

/-- Reading a file of the store by name. -/
def fsLookup : SkillStore → Str → Option Str
  | [], _ => none
  | (k, v) :: rest, key => if k = key then some v else fsLookup rest key

/-- Number of entries of the store carrying a given name. -/
def keyCount (store : SkillStore) (key : Str) : Nat :=
  (store.filter fun p => decide (p.1 = key)).length

/-- `create_skill` (src/main.py lines 84-102): derives the slug file name,
writes the fixed title/description/instructions template, and returns the
success message.  (The `except` branch reports an unwritable directory; the
embedded store write always succeeds.) -/
def create_skill (store : SkillStore) (name description instructions : Str) :
    SkillStore × Str :=
  let skill_file := slugOf name ++ ".md".toList
  let content :=
    "# ".toList ++ name ++ "\n\n## Description\n".toList ++ description ++
      "\n\n## Instructions\n".toList ++ instructions ++ "\n".toList
  (fsWrite store skill_file content,
    "Skill '".toList ++ name ++ "' created successfully. It is now available for use.".toList)

/-! ## Concrete instances used by the witnesses -/

/-- A decoder refusing every argument text (models `json.loads` raising). -/
def jsonLoadsNone : Str → Option Json := fun _ => none

/-- A decoder returning JSON `null` for every argument text. -/
def jsonLoadsNull : Str → Option Json := fun _ => some Json.null

/-- A decoder returning the JSON number 3 for every argument text. -/
def jsonLoadsNum : Str → Option Json := fun _ => some (Json.num 3)

/-- A one-parameter tool whose body always succeeds. -/
def echoTool : Tool where
  params := ["command".toList]
  impl := fun _ => Except.ok ("ok".toList)

/-- A registry holding only `run_shell_command` (backed by `echoTool`). -/
def toolsMapShell : List (Str × Tool) := [("run_shell_command".toList, echoTool)]

/-! ## Helper lemmas -/

/-- Unfolding the dispatch loop: it appends, after the given messages, the
mapped list of truncated per-call tool-result messages. -/
theorem dispatchCalls_eq_append (json_loads : Str → Option Json)
    (tools_map : List (Str × Tool)) (calls : List ToolCall) (msgs : List Msg) :
    dispatchCalls json_loads tools_map calls msgs =
      msgs ++ calls.map
        (fun c => Msg.tool c.id (truncateResult (dispatchResult json_loads tools_map c))) := by
  induction calls generalizing msgs with
  | nil => simp [dispatchCalls]
  | cons c rest ih =>
      rw [dispatchCalls, ih]
      simp

/-- Looking up the key just written finds the new content. -/
theorem fsLookup_fsWrite (store : SkillStore) (key content : Str) :
    fsLookup (fsWrite store key content) key = some content := by
  induction store with
  | nil => simp [fsWrite, fsLookup]
  | cons a rest ih =>
      by_cases h : a.1 = key
      · simpa [fsWrite, h] using ih
      · simpa [fsWrite, fsLookup, h] using ih

/-- After a write, the store holds exactly one entry for the written key. -/
theorem keyCount_fsWrite (store : SkillStore) (key content : Str) :
    keyCount (fsWrite store key content) key = 1 := by
  induction store with
  | nil => simp [fsWrite, keyCount]
  | cons a rest ih =>
      by_cases h : a.1 = key
      · simp only [fsWrite, keyCount] at ih ⊢
        simp [h, ih]
      · simp only [fsWrite, keyCount] at ih ⊢
        simp [h, ih]

/-! ## Claims -/

/-- Claim C2: a result longer than 10000 characters is truncated to exactly
its first 10000 characters followed by the fixed marker; a result of length
at most 10000 passes through unchanged; and truncation is idempotent. -/
theorem truncate_cap_and_idempotent (s : Str) :
    (s.length > 10000 → truncateResult s = s.take 10000 ++ "... [Truncated]".toList) ∧
    (s.length ≤ 10000 → truncateResult s = s) ∧
    truncateResult (truncateResult s) = truncateResult s := by
  refine ⟨fun h => by simp only [truncateResult, if_pos h], fun h => ?_, ?_⟩
  · have h2 : ¬ s.length > 10000 := by omega
    simp only [truncateResult, if_neg h2]
  · by_cases h : s.length > 10000
    · have h1 : truncateResult s = s.take 10000 ++ "... [Truncated]".toList := by
        simp only [truncateResult, if_pos h]
      have hlen : (s.take 10000).length = 10000 := by
        rw [List.length_take]
        omega
      have h2 : (s.take 10000 ++ "... [Truncated]".toList).length > 10000 := by
        rw [List.length_append, hlen]
        norm_num
      rw [h1]
      simp only [truncateResult, if_pos h2]
      rw [List.take_append_eq_append_take, hlen, List.take_of_length_le (le_of_eq hlen)]
      simp
    · have h1 : truncateResult s = s := by
        simp only [truncateResult, if_neg h]
      rw [h1, h1]

/-- Witness for C2: a 10001-character result is cut to its first 10000
characters plus the marker; a short result is unchanged. -/
theorem truncate_cap_and_idempotent_witness :
    truncateResult (List.replicate 10001 'a') =
      List.replicate 10000 'a' ++ "... [Truncated]".toList ∧
    truncateResult ("short".toList) = "short".toList := by
  constructor
  · have hl : (List.replicate 10001 'a').length > 10000 := by
      rw [List.length_replicate]
      norm_num
    rw [(truncate_cap_and_idempotent (List.replicate 10001 'a')).1 hl, List.take_replicate]
    norm_num
  · exact (truncate_cap_and_idempotent ("short".toList)).2.1 (by decide)

/-- Claim C1: dispatching the tool calls of an assistant reply appends
exactly one tool-result message per call, in the order of the calls, each
carrying the id of its originating call (the mapped message for call `c`
is built as `Msg.tool c.id ...`). -/
theorem dispatch_appends_one_result_per_call (json_loads : Str → Option Json)
    (tools_map : List (Str × Tool)) (calls : List ToolCall) (msgs : List Msg) :
    dispatchCalls json_loads tools_map calls msgs =
      msgs ++ calls.map
        (fun c => Msg.tool c.id (truncateResult (dispatchResult json_loads tools_map c))) ∧
    (dispatchCalls json_loads tools_map calls msgs).length = msgs.length + calls.length ∧
    (dispatchCalls json_loads tools_map calls msgs).drop msgs.length =
      calls.map
        (fun c => Msg.tool c.id (truncateResult (dispatchResult json_loads tools_map c))) ∧
    ∀ i : Nat,
      (calls.map
        (fun c => Msg.tool c.id (truncateResult (dispatchResult json_loads tools_map c))))[i]? =
      calls[i]?.map
        (fun c => Msg.tool c.id (truncateResult (dispatchResult json_loads tools_map c))) := by
  refine ⟨dispatchCalls_eq_append json_loads tools_map calls msgs, ?_, ?_, ?_⟩
  · rw [dispatchCalls_eq_append]
    simp
  · rw [dispatchCalls_eq_append]
    simp [List.drop_left]
  · intro i
    exact List.getElem?_map _ calls i

/-- Claim C3: a reply with zero tool calls ends the turn immediately — the
turn result is the conversation extended by just that assistant message,
after exactly one model call, whatever replies the model could still give;
and this is the only way a turn ends: on a reply with tool calls the loop
always performs another model call (the call count grows), with no timeout,
call-count limit, or interrupt branch in the loop. -/
theorem turn_ends_iff_no_tool_calls (json_loads : Str → Option Json)
    (tools_map : List (Str × Tool)) (r : Reply) (rest : List Reply) (msgs : List Msg) :
    (r.tool_calls = [] →
      runTurn json_loads tools_map (r :: rest) msgs =
        some (msgs ++ [Msg.assistant r.content r.tool_calls], 1)) ∧
    (r.tool_calls ≠ [] →
      runTurn json_loads tools_map (r :: rest) msgs =
        Option.map (fun p => (p.1, p.2 + 1))
          (runTurn json_loads tools_map rest
            (dispatchCalls json_loads tools_map r.tool_calls
              (msgs ++ [Msg.assistant r.content r.tool_calls])))) := by
  constructor
  · intro h
    simp [runTurn, h]
  · intro h
    simp only [runTurn, if_neg h]
    cases runTurn json_loads tools_map rest
        (dispatchCalls json_loads tools_map r.tool_calls
          (msgs ++ [Msg.assistant r.content r.tool_calls])) with
    | none => rfl
    | some p => rfl

/-- Witness for C3: a reply without tool calls ends the turn after one model
call even though more replies were available; a reply with a tool call does
not end the turn (the loop asks for another reply, exhausting the supply). -/
theorem turn_ends_iff_no_tool_calls_witness :
    runTurn jsonLoadsNone toolsMapShell
        [⟨some ("hi".toList), []⟩, ⟨some ("later".toList), []⟩] [] =
      some ([Msg.assistant (some ("hi".toList)) []], 1) ∧
    runTurn jsonLoadsNone toolsMapShell
        [⟨none, [⟨"1".toList, "run_shell_command".toList, "x".toList⟩]⟩] [] = none := by
  constructor
  · exact (turn_ends_iff_no_tool_calls jsonLoadsNone toolsMapShell
      ⟨some ("hi".toList), []⟩ [⟨some ("later".toList), []⟩] []).1 rfl
  · rw [(turn_ends_iff_no_tool_calls jsonLoadsNone toolsMapShell
      ⟨none, [⟨"1".toList, "run_shell_command".toList, "x".toList⟩]⟩ [] []).2 (by simp)]
    rfl

/-- Claim C4: when the raw arguments of a call fail to decode, the dispatch
produces the invalid-arguments text for that call (the single decode is the
only strategy in the code), appends it as the call's tool-result message, and
the remaining calls of the batch are processed exactly as they would be on
their own. -/
theorem invalid_json_args_contained (json_loads : Str → Option Json)
    (tools_map : List (Str × Tool)) (c : ToolCall) (rest : List ToolCall) (msgs : List Msg)
    (h : json_loads c.arguments = none) :
    dispatchResult json_loads tools_map c =
      "Error: Invalid arguments for tool '".toList ++ c.name ++ "'.".toList ∧
    dispatchCalls json_loads tools_map (c :: rest) msgs =
      msgs ++
        Msg.tool c.id (truncateResult
          ("Error: Invalid arguments for tool '".toList ++ c.name ++ "'.".toList)) ::
        rest.map
          (fun c2 => Msg.tool c2.id (truncateResult (dispatchResult json_loads tools_map c2))) := by
  have hres : dispatchResult json_loads tools_map c =
      "Error: Invalid arguments for tool '".toList ++ c.name ++ "'.".toList := by
    simp [dispatchResult, h]
  refine ⟨hres, ?_⟩
  rw [dispatchCalls_eq_append]
  simp [hres]

/-- Witness for C4: a call whose arguments do not decode yields the
invalid-arguments message and dispatch still appends one message. -/
theorem invalid_json_args_contained_witness :
    dispatchResult jsonLoadsNone toolsMapShell
        ⟨"call_1".toList, "web_search".toList, "not json".toList⟩ =
      "Error: Invalid arguments for tool '".toList ++ "web_search".toList ++ "'.".toList ∧
    dispatchCalls jsonLoadsNone toolsMapShell
        [⟨"call_1".toList, "web_search".toList, "not json".toList⟩] [] =
      [] ++
        Msg.tool ("call_1".toList) (truncateResult
          ("Error: Invalid arguments for tool '".toList ++ "web_search".toList ++ "'.".toList)) ::
        ([] : List ToolCall).map
          (fun c2 => Msg.tool c2.id (truncateResult (dispatchResult jsonLoadsNone toolsMapShell c2))) :=
  invalid_json_args_contained jsonLoadsNone toolsMapShell
    ⟨"call_1".toList, "web_search".toList, "not json".toList⟩ [] [] rfl

/-- Claim C5: when the arguments decode but the name is not in the registry
(the lookup only happens after a successful decode), the dispatch produces
the tool-not-found text — total, so nothing is raised — appends it for that
call, and the remaining calls are processed as usual. -/
theorem unknown_tool_contained (json_loads : Str → Option Json)
    (tools_map : List (Str × Tool)) (c : ToolCall) (rest : List ToolCall) (msgs : List Msg)
    (j : Json) (h1 : json_loads c.arguments = some j)
    (h2 : lookupTool tools_map c.name = none) :
    dispatchResult json_loads tools_map c =
      "Error: Tool '".toList ++ c.name ++ "' not found.".toList ∧
    dispatchCalls json_loads tools_map (c :: rest) msgs =
      msgs ++
        Msg.tool c.id (truncateResult
          ("Error: Tool '".toList ++ c.name ++ "' not found.".toList)) ::
        rest.map
          (fun c2 => Msg.tool c2.id (truncateResult (dispatchResult json_loads tools_map c2))) := by
  have hres : dispatchResult json_loads tools_map c =
      "Error: Tool '".toList ++ c.name ++ "' not found.".toList := by
    simp [dispatchResult, h1, h2]
  refine ⟨hres, ?_⟩
  rw [dispatchCalls_eq_append]
  simp [hres]

/-- Witness for C5: a decodable call to an unregistered name yields the
tool-not-found message and dispatch appends exactly that message. -/
theorem unknown_tool_contained_witness :
    dispatchResult jsonLoadsNull toolsMapShell
        ⟨"call_2".toList, "no_such_tool".toList, "null".toList⟩ =
      "Error: Tool '".toList ++ "no_such_tool".toList ++ "' not found.".toList ∧
    dispatchCalls jsonLoadsNull toolsMapShell
        [⟨"call_2".toList, "no_such_tool".toList, "null".toList⟩] [] =
      [] ++
        Msg.tool ("call_2".toList) (truncateResult
          ("Error: Tool '".toList ++ "no_such_tool".toList ++ "' not found.".toList)) ::
        ([] : List ToolCall).map
          (fun c2 => Msg.tool c2.id (truncateResult (dispatchResult jsonLoadsNull toolsMapShell c2))) :=
  unknown_tool_contained jsonLoadsNull toolsMapShell
    ⟨"call_2".toList, "no_such_tool".toList, "null".toList⟩ [] [] Json.null rfl rfl

/-- Claim C10: when decoding succeeds and the name resolves but the
keyword-unpacking invocation raises (for instance on a non-mapping value or
on mismatched argument names), the generic handler turns the exception into
the executing-error text — which differs from the invalid-arguments text —
and the remaining calls are processed as usual; the loop itself stays total. -/
theorem invoke_exception_contained (json_loads : Str → Option Json)
    (tools_map : List (Str × Tool)) (c : ToolCall) (rest : List ToolCall) (msgs : List Msg)
    (j : Json) (t : Tool) (m : Str)
    (h1 : json_loads c.arguments = some j)
    (h2 : lookupTool tools_map c.name = some t)
    (h3 : invokeKw t j = Except.error m) :
    dispatchResult json_loads tools_map c =
      "Error executing tool '".toList ++ c.name ++ "': ".toList ++ m ∧
    dispatchResult json_loads tools_map c ≠
      "Error: Invalid arguments for tool '".toList ++ c.name ++ "'.".toList ∧
    dispatchCalls json_loads tools_map (c :: rest) msgs =
      msgs ++
        Msg.tool c.id (truncateResult
          ("Error executing tool '".toList ++ c.name ++ "': ".toList ++ m)) ::
        rest.map
          (fun c2 => Msg.tool c2.id (truncateResult (dispatchResult json_loads tools_map c2))) := by
  have hres : dispatchResult json_loads tools_map c =
      "Error executing tool '".toList ++ c.name ++ "': ".toList ++ m := by
    simp [dispatchResult, h1, h2, h3]
  refine ⟨hres, ?_, ?_⟩
  · intro he
    have hchain : ("Error executing tool '".toList ++ c.name ++ "': ".toList ++ m).get? 5 =
        ("Error: Invalid arguments for tool '".toList ++ c.name ++ "'.".toList).get? 5 := by
      rw [← hres, ← he]
    have e1 : ("Error executing tool '".toList ++ c.name ++ "': ".toList ++ m).get? 5 =
        some ' ' := rfl
    have e2 : ("Error: Invalid arguments for tool '".toList ++ c.name ++ "'.".toList).get? 5 =
        some ':' := rfl
    rw [e1, e2] at hchain
    exact absurd hchain (by decide)
  · rw [dispatchCalls_eq_append]
    simp [hres]

/-- Witness for C10: decoding yields the number 3, which the unpacking
cannot use as keyword arguments, so the call is reported as an execution
error and one message is appended. -/
theorem invoke_exception_contained_witness :
    dispatchResult jsonLoadsNum toolsMapShell
        ⟨"call_3".toList, "run_shell_command".toList, "3".toList⟩ =
      "Error executing tool '".toList ++ "run_shell_command".toList ++ "': ".toList ++
        "argument after ** must be a mapping".toList ∧
    dispatchResult jsonLoadsNum toolsMapShell
        ⟨"call_3".toList, "run_shell_command".toList, "3".toList⟩ ≠
      "Error: Invalid arguments for tool '".toList ++ "run_shell_command".toList ++ "'.".toList ∧
    dispatchCalls jsonLoadsNum toolsMapShell
        [⟨"call_3".toList, "run_shell_command".toList, "3".toList⟩] [] =
      [] ++
        Msg.tool ("call_3".toList) (truncateResult
          ("Error executing tool '".toList ++ "run_shell_command".toList ++ "': ".toList ++
            "argument after ** must be a mapping".toList)) ::
        ([] : List ToolCall).map
          (fun c2 => Msg.tool c2.id (truncateResult (dispatchResult jsonLoadsNum toolsMapShell c2))) :=
  invoke_exception_contained jsonLoadsNum toolsMapShell
    ⟨"call_3".toList, "run_shell_command".toList, "3".toList⟩ [] []
    (Json.num 3) echoTool ("argument after ** must be a mapping".toList) rfl rfl rfl

/-- Inserting into a list never yields the empty list. -/
theorem insertStr_ne_nil (x : Str) (ys : List Str) : insertStr x ys ≠ [] := by
  cases ys with
  | nil => simp [insertStr]
  | cons y ys =>
      rw [insertStr]
      by_cases h : strLe x y = true
      · simp [h]
      · simp [h]

/-- Sorting a non-empty list of strings yields a non-empty list. -/
theorem sortStrs_ne_nil (xs : List Str) (h : xs ≠ []) : sortStrs xs ≠ [] := by
  cases xs with
  | nil => exact absurd rfl h
  | cons x xs => exact insertStr_ne_nil x (sortStrs xs)

/-- Claim C6: on an existing directory `list_directory` returns the entries
newline-joined in sorted order (so entries b.txt, a.txt come back as
a.txt then b.txt), on an existing empty directory the empty-directory
literal, and on a non-directory an error text — the function is total, so no
exception escapes. -/
theorem list_directory_cases (fs : DirFS) (p : Str) :
    (fs.is_dir p = true → fs.listdir p = ["b.txt".toList, "a.txt".toList] →
      list_directory fs p = "a.txt\nb.txt".toList) ∧
    (fs.is_dir p = true → fs.listdir p = [] →
      list_directory fs p = "(Empty directory)".toList) ∧
    (fs.is_dir p = true → fs.listdir p ≠ [] →
      list_directory fs p = List.intercalate "\n".toList (sortStrs (fs.listdir p))) ∧
    (fs.is_dir p = false →
      list_directory fs p = "Error: ".toList ++ p ++ " is not a valid directory.".toList) := by
  refine ⟨?_, ?_, ?_, ?_⟩
  · intro h1 h2
    simp only [list_directory, h1, h2]
    norm_num
    decide
  · intro h1 h2
    simp only [list_directory, h1, h2]
    norm_num
    intro h
    exact absurd rfl h
  · intro h1 h2
    simp only [list_directory, h1]
    simp [sortStrs_ne_nil (fs.listdir p) h2]
  · intro h
    simp [list_directory, h]

/-- A directory containing b.txt and a.txt at every path. -/
def fsTwoEntries : DirFS where
  is_dir := fun _ => true
  listdir := fun _ => ["b.txt".toList, "a.txt".toList]

/-- An empty directory at every path. -/
def fsEmptyDir : DirFS where
  is_dir := fun _ => true
  listdir := fun _ => []

/-- A filesystem on which no path is a directory. -/
def fsNotDir : DirFS where
  is_dir := fun _ => false
  listdir := fun _ => []

/-- Witness for C6: the three cases at concrete filesystems and a concrete
path. -/
theorem list_directory_cases_witness :
    list_directory fsTwoEntries ("/tmp/d".toList) = "a.txt\nb.txt".toList ∧
    list_directory fsEmptyDir ("/tmp/d".toList) = "(Empty directory)".toList ∧
    list_directory fsNotDir ("/tmp/d".toList) =
      "Error: ".toList ++ "/tmp/d".toList ++ " is not a valid directory.".toList :=
  ⟨(list_directory_cases fsTwoEntries ("/tmp/d".toList)).1 rfl rfl,
    (list_directory_cases fsEmptyDir ("/tmp/d".toList)).2.1 rfl rfl,
    (list_directory_cases fsNotDir ("/tmp/d".toList)).2.2.2 rfl⟩

/-- Claim C7: the slug of a skill name replaces spaces by underscores and
lower-cases (Deploy Helper becomes deploy_helper); `create_skill` writes the
fixed template under the slug file name, the document is reachable by that
slug, a second creation with the same name overwrites rather than
duplicates (exactly one entry for the slug remains), and the returned text
is the success message naming the skill. -/
theorem create_skill_slug_template_overwrite (store : SkillStore)
    (name description instructions d2 i2 : Str) :
    slugOf ("Deploy Helper".toList) = "deploy_helper".toList ∧
    (create_skill store name description instructions).1 =
      fsWrite store (slugOf name ++ ".md".toList)
        ("# ".toList ++ name ++ "\n\n## Description\n".toList ++ description ++
          "\n\n## Instructions\n".toList ++ instructions ++ "\n".toList) ∧
    fsLookup (create_skill store name description instructions).1
        (slugOf name ++ ".md".toList) =
      some ("# ".toList ++ name ++ "\n\n## Description\n".toList ++ description ++
        "\n\n## Instructions\n".toList ++ instructions ++ "\n".toList) ∧
    keyCount ((create_skill (create_skill store name description instructions).1 name d2 i2).1)
      (slugOf name ++ ".md".toList) = 1 ∧
    (create_skill store name description instructions).2 =
      "Skill '".toList ++ name ++ "' created successfully. It is now available for use.".toList := by
  refine ⟨by decide, rfl, ?_, ?_, rfl⟩
  · simp only [create_skill]
    exact fsLookup_fsWrite store _ _
  · simp only [create_skill]
    exact keyCount_fsWrite _ _ _

/-- Counterexample to C8 as stated: for a command whose captured stdout and
stderr are both empty (exit status 1), the returned text is the fixed
no-output literal, not the captured stdout. -/
theorem run_shell_empty_output_counterexample :
    run_shell_command (ProcOutcome.completed ⟨[], [], 1⟩) =
      "Command executed successfully with no output.".toList ∧
    run_shell_command (ProcOutcome.completed ⟨[], [], 1⟩) ≠ ([] : Str) := by
  constructor
  · decide
  · decide

/-- Claim C8 (amended): `run_shell_command` is total — never raises — and on
a completed process returns the captured stdout with stderr merged under the
STDERR: marker exactly when stderr is non-empty, except that a combined
output that strips to empty is replaced by the fixed no-output literal; the
exit status never influences the result. -/
theorem run_shell_output_merge (r : ProcResult) :
    (r.stderr = [] → mergedOutput r = r.stdout) ∧
    (r.stderr ≠ [] → mergedOutput r = r.stdout ++ "\nSTDERR:\n".toList ++ r.stderr) ∧
    (pyStrip (mergedOutput r) ≠ [] →
      run_shell_command (ProcOutcome.completed r) = mergedOutput r) ∧
    (pyStrip (mergedOutput r) = [] →
      run_shell_command (ProcOutcome.completed r) =
        "Command executed successfully with no output.".toList) ∧
    ∀ code : Int,
      run_shell_command (ProcOutcome.completed ⟨r.stdout, r.stderr, code⟩) =
        run_shell_command (ProcOutcome.completed r) := by
  refine ⟨?_, ?_, ?_, ?_, ?_⟩
  · intro h
    simp [mergedOutput, h]
  · intro h
    simp [mergedOutput, h]
  · intro h
    simp [run_shell_command, h]
  · intro h
    simp [run_shell_command, h]
  · intro code
    rfl

/-- Witness for C8 (amended): a non-empty stderr is merged under the marker,
and results at exit status 7 and 0 agree. -/
theorem run_shell_output_merge_witness :
    mergedOutput ⟨"out".toList, "boom".toList, 1⟩ =
      "out".toList ++ "\nSTDERR:\n".toList ++ "boom".toList ∧
    run_shell_command (ProcOutcome.completed ⟨"out".toList, [], 7⟩) =
      run_shell_command (ProcOutcome.completed ⟨"out".toList, [], 0⟩) :=
  ⟨(run_shell_output_merge ⟨"out".toList, "boom".toList, 1⟩).2.1 (by decide),
    (run_shell_output_merge ⟨"out".toList, [], 0⟩).2.2.2.2 7⟩

/-- Claim C9: whenever the combined captured output strips to nothing (empty
or whitespace only), `run_shell_command` returns the fixed no-output
literal instead of that output. -/
theorem run_shell_no_output_literal (r : ProcResult)
    (h : pyStrip (mergedOutput r) = []) :
    run_shell_command (ProcOutcome.completed r) =
      "Command executed successfully with no output.".toList := by
  simp [run_shell_command, h]

/-- Witness for C9: a command producing only a space and a newline on stdout
(and nothing on stderr) yields the no-output literal. -/
theorem run_shell_no_output_literal_witness :
    run_shell_command (ProcOutcome.completed ⟨" \n".toList, [], 0⟩) =
      "Command executed successfully with no output.".toList :=
  run_shell_no_output_literal ⟨" \n".toList, [], 0⟩ (by decide)

end GptCli
